import Mathlib

/-!
Verification of the provision-ble daemon (BLE Wi-Fi provisioning for
Raspberry Pi) against its natural-language specification.

The development is a shallow embedding of the daemon's observable core:

* byte sequences (`std::string` / D-Bus `ay` payloads) are `List Nat`
  with each element standing for one 8-bit byte;
* the JSON helpers of `src/gatt/state.cpp` (`json_escape`,
  `make_ay_from_string`, `make_state_payload`, `build_wifi_scan_payload`)
  become pure functions on byte lists;
* the Wi-Fi scan utility of `src/wifi/scan.cpp` (busy guard, SSID
  dedup/sort) becomes a function from an environment plus the busy flag
  to a scan outcome;
* the provisioning state machine of `src/gatt/state.cpp`, the StartNotify
  plumbing of `src/gatt/characteristic.cpp` / `src/wifi/wifi_state_dispatcher.cpp`,
  and the command parser of the Command characteristic become explicit
  state-passing functions over a `World` record that carries the global
  state string, the State characteristic's notify flag and cached value,
  the scan-busy flag, and the trace of Value property-change emissions on
  the State characteristic.
-/

namespace ProvisionBLE

/-- Byte list of an ASCII string literal (one `Nat` per byte). -/
def bytes (s : String) : List Nat := s.data.map Char.toNat

/-! ## json_escape (src/gatt/state.cpp lines 113-131)

The C++ loop appends to an output string `out` for each input byte `c`:
the five escape cases, then `< 0x20 → '?'`, else the byte itself. -/

/-- One iteration of the `json_escape` loop body: append the escape of
byte `c` to the accumulated output `out`. -/
def escStep (out : List Nat) (c : Nat) : List Nat :=
  if c = 0x5C then out ++ [0x5C, 0x5C]
  else if c = 0x22 then out ++ [0x5C, 0x22]
  else if c = 0x0A then out ++ [0x5C, 0x6E]
  else if c = 0x0D then out ++ [0x5C, 0x72]
  else if c = 0x09 then out ++ [0x5C, 0x74]
  else if c < 0x20 then out ++ [0x3F]
  else out ++ [c]

/-- `json_escape` from `state.cpp`: fold the escape loop over the input. -/
def json_escape (s : List Nat) : List Nat := s.foldl escStep []

/-- Modelled from the spec: the per-byte escape map the spec describes
(escape set `\\ \" \n \r \t`; other bytes `< 0x20` become `?`; all other
bytes unchanged). Used to state the refinement of `json_escape`. -/
def escByteSpec (b : Nat) : List Nat :=
  if b = 0x5C then [0x5C, 0x5C]
  else if b = 0x22 then [0x5C, 0x22]
  else if b = 0x0A then [0x5C, 0x6E]
  else if b = 0x0D then [0x5C, 0x72]
  else if b = 0x09 then [0x5C, 0x74]
  else if b < 0x20 then [0x3F]
  else [b]

/-! ## make_ay_from_string (src/gatt/state.cpp lines 47-56)

The C++ helper walks the C string up to its NUL terminator, so any byte
equal to 0 truncates the payload. -/

/-- `make_ay_from_string`: copy bytes up to the first NUL. -/
def make_ay (s : List Nat) : List Nat := s.takeWhile (fun b => b != 0)

/-- `make_state_payload`: the JSON bytes of a plain state notification. -/
def stateJson (s : String) : List Nat :=
  bytes ("\x7b\"state\":\"" ++ s ++ "\"\x7d")

/-- JSON payload built by `notify_state_connected` (state.cpp 200-205). -/
def connectedJson (ssid ip : List Nat) : List Nat :=
  bytes "\x7b\"state\":\"CONNECTED\",\"ssid\":\"" ++ json_escape ssid ++
    bytes "\",\"ip\":\"" ++ json_escape ip ++ bytes "\"\x7d"

/-! ## build_wifi_scan_payload (src/gatt/state.cpp lines 133-152) -/

/-- Conservative single-chunk payload limit (bytes). -/
def MAX_NOTIFY_BYTES : Nat := 200

/-- The fixed opening of the scan payload. -/
def scanHeader : List Nat := bytes "\x7b\"op\":\"wifi_scan\",\"ssids\":["

/-- The closing `]` + brace of the scan payload. -/
def scanFooter : List Nat := bytes "]\x7d"

/-- The loop of `build_wifi_scan_payload`: `payload` is the accumulated
output, `first` the no-comma-yet flag; `break` on the first entry whose
inclusion (plus the 2 closing bytes) would exceed the cap. -/
def buildLoop : List (List Nat) → List Nat → Bool → List Nat
  | [], payload, _ => payload ++ scanFooter
  | ssid :: rest, payload, first =>
    let entry := (if first then [] else [0x2C]) ++
      [0x22] ++ json_escape ssid ++ [0x22]
    if payload.length + entry.length + 2 > MAX_NOTIFY_BYTES then
      payload ++ scanFooter
    else
      buildLoop rest (payload ++ entry) false

/-- `build_wifi_scan_payload` from `state.cpp`. -/
def build_wifi_scan_payload (ssids : List (List Nat)) : List Nat :=
  buildLoop ssids scanHeader true

/-- One quoted, escaped SSID entry (without any separating comma). -/
def quotedEsc (s : List Nat) : List Nat := [0x22] ++ json_escape s ++ [0x22]

/-- Comma-join a list of already-rendered entries. -/
def commaJoin : List (List Nat) → List Nat
  | [] => []
  | [x] => x
  | x :: y :: xs => x ++ [0x2C] ++ commaJoin (y :: xs)

/-- The scan payload body rendered for a given SSID prefix (no footer). -/
def renderBody (l : List (List Nat)) : List Nat :=
  scanHeader ++ commaJoin (l.map quotedEsc)

/-- The full scan payload rendered for a given SSID prefix. -/
def render (l : List (List Nat)) : List Nat := renderBody l ++ scanFooter

/-! ## Wi-Fi scan utility (src/wifi/scan.cpp)

`scan_ssids` acquires the process-wide `g_scan_busy` atomic through
`ScanBusyGuard` (compare-and-swap false→true on construction, store
false on destruction when acquired), talks to NetworkManager, and
dedups/sorts the observed access points.  The NetworkManager side is the
environment: whether the client can be created, whether a Wi-Fi device
exists, and the access-point array (SSID bytes, strength 0-255). -/

/-- The NetworkManager-visible environment, constant during one call. -/
structure Env where
  /-- `nm_client_new` succeeds. -/
  nm_ok : Bool
  /-- Some NetworkManager device is a Wi-Fi device (scan and connect). -/
  has_wifi_dev : Bool
  /-- `nm_device_wifi_get_access_points`: `none` models a null array. -/
  aps : Option (List (List Nat × Nat))
  /-- `nm_client_get_device_by_iface("wlan0")` yields a Wi-Fi device. -/
  wlan0_wifi : Bool
  /-- Active access point SSID bytes on wlan0; `none` models no active
  AP (or null SSID bytes), in which case the code keeps `"unknown"`. -/
  apSsid : Option (List Nat)
  /-- First IPv4 address of wlan0 in string form; `[]` models none. -/
  ip4 : List Nat
deriving Repr, DecidableEq

/-- `best_strength[ssid] = max(old, strength)` insertion into the map,
keeping one entry per SSID (`scan.cpp` lines 157-159). -/
def insert_best (m : List (List Nat × Nat)) (s : List Nat) (st : Nat) :
    List (List Nat × Nat) :=
  match m with
  | [] => [(s, st)]
  | (k, v) :: rest =>
    if k = s then (k, if st > v then st else v) :: rest
    else (k, v) :: insert_best rest s st

/-- Fold of the access-point loop (`scan.cpp` lines 145-160): empty
SSIDs are dropped, others update the best-strength map.  `std::map` is
keyed; the model keeps first-seen order instead of key order, which only
affects the ordering of strength ties that `std::sort` (not stable)
leaves unspecified anyway. -/
def scanStep (m : List (List Nat × Nat)) (p : List Nat × Nat) :
    List (List Nat × Nat) :=
  if p.1 = [] then m else insert_best m p.1 p.2

/-- The deduplicated best-strength map over all observed access points. -/
def bestMap (aps : List (List Nat × Nat)) : List (List Nat × Nat) :=
  aps.foldl scanStep []

/-- The descending-strength comparator of `scan.cpp` line 166-169
(`a.second > b.second` as a strict weak order; its induced sorted-ness
is non-increasing strength). -/
def strengthGe (a b : List Nat × Nat) : Prop := b.2 ≤ a.2

instance : DecidableRel strengthGe := fun a b => Nat.decLe b.2 a.2

instance : IsTotal (List Nat × Nat) strengthGe :=
  ⟨fun a b => Nat.le_total b.2 a.2⟩

instance : IsTrans (List Nat × Nat) strengthGe :=
  ⟨fun _ _ _ h1 h2 => Nat.le_trans h2 h1⟩

/-- The `std::sort` call on the (ssid, strength) pairs. -/
def sortPairs (m : List (List Nat × Nat)) : List (List Nat × Nat) :=
  List.insertionSort strengthGe m

/-- The pure core of `scan_ssids`: dedup by SSID keeping the strongest
signal, sort by descending strength, keep the SSIDs. -/
def scan_core (aps : List (List Nat × Nat)) : List (List Nat) :=
  (sortPairs (bestMap aps)).map Prod.fst

/-- Outcome of one `scan_ssids` call: the returned SSID list, whether
the guard was acquired, whether the Wi-Fi layer was touched
(`nm_client_new` onwards), and the busy flag after the call returns
(i.e. after `~ScanBusyGuard`). -/
structure ScanOutcome where
  result : List (List Nat)
  acquired : Bool
  touched : Bool
  busy_after : Bool
deriving Repr, DecidableEq

/-- `scan_ssids` (`scan.cpp` lines 81-179) over environment `env` with
the busy flag equal to `busy` at entry.  Every exit path runs the guard
destructor, which clears the flag exactly when it was acquired. -/
def scan_ssids (env : Env) (busy : Bool) : ScanOutcome :=
  if busy then
    -- compare_exchange fails: return empty, destructor leaves the flag
    { result := [], acquired := false, touched := false,
      busy_after := busy }
  else if !env.nm_ok then
    { result := [], acquired := true, touched := true, busy_after := false }
  else if !env.has_wifi_dev then
    { result := [], acquired := true, touched := true, busy_after := false }
  else
    match env.aps with
    | none =>
      { result := [], acquired := true, touched := true,
        busy_after := false }
    | some aps =>
      { result := scan_core aps, acquired := true, touched := true,
        busy_after := false }

/-! ## Wi-Fi connect (src/unnamed/part_003 and part_004)

`provision::wifi::connect` returns `FAILED` when the NetworkManager
client cannot be created or no Wi-Fi device exists; otherwise it builds
the WPA-PSK profile, submits the asynchronous add-and-activate request
and returns `REQUESTED` without waiting for the result. -/

inductive ConnectResult where
  | REQUESTED
  | FAILED
deriving Repr, DecidableEq

/-- `provision::wifi::connect` (part_003 lines 48-154), synchronous
result only; the async activation outcome is never observed. -/
def wifi_connect (env : Env) : ConnectResult :=
  if !env.nm_ok then ConnectResult.FAILED
  else if !env.has_wifi_dev then ConnectResult.FAILED
  else ConnectResult.REQUESTED

/-! ## The GATT world

The dispatcher-owned mutable state that the claims observe: the global
provisioning state string `g_state` (state.cpp line 41), the State
characteristic's `notifying` flag and cached `Value` (characteristic.cpp
`CharContext`), the scan-busy flag, and the trace of Value
property-change emissions on the State characteristic's object path. -/

structure World where
  g_state : String
  notifying : Bool
  cached : Option (List Nat)
  scan_busy : Bool
  emitted : List (List Nat)
deriving Repr, DecidableEq

/-- The world at daemon start, after the characteristics are exported:
state `UNCONFIGURED`, no subscriber, cache seeded from the read
callback, scan not busy, nothing emitted. -/
def initWorld : World :=
  { g_state := "UNCONFIGURED", notifying := false,
    cached := some (make_ay (stateJson "UNCONFIGURED")),
    scan_busy := false, emitted := [] }

/-- `notify_characteristic_value` for the State characteristic
(characteristic.cpp lines 399-426): no-op unless `notifying`; otherwise
replace the cached value and emit the `Value` PropertiesChanged signal.
The characteristic is registered (the world models the exported tree)
and the value argument is never null. -/
def notify_characteristic_value (w : World) (v : List Nat) : World :=
  if !w.notifying then w
  else { w with cached := some v, emitted := w.emitted ++ [v] }

/-- `notify_state` (state.cpp lines 64-74): publish the current state
as `{"state":"…"}` through `make_ay_from_string`. -/
def notify_state (w : World) : World :=
  notify_characteristic_value w (make_ay (stateJson w.g_state))

/-- `on_read_state` (state.cpp lines 76-80): the ReadValue callback. -/
def on_read_state (w : World) : List Nat := make_ay (stateJson w.g_state)

/-- `handle_wifi_scan_request` (state.cpp lines 163-188). -/
def handle_wifi_scan_request (env : Env) (w : World) : World :=
  let w1 := notify_state { w with g_state := "SCANNING" }
  let o := scan_ssids env w1.scan_busy
  let w2 := { w1 with scan_busy := o.busy_after }
  let w3 := notify_characteristic_value w2
    (make_ay (build_wifi_scan_payload o.result))
  notify_state { w3 with g_state := "SCAN_COMPLETE" }

/-- `notify_state_connected` (state.cpp lines 190-212). -/
def notify_state_connected (ssid ip : List Nat) (w : World) : World :=
  notify_characteristic_value { w with g_state := "CONNECTED" }
    (make_ay (connectedJson ssid ip))

/-- `handle_wifi_connect_request` (state.cpp lines 214-228). -/
def handle_wifi_connect_request (env : Env) (ssid psk : List Nat)
    (w : World) : World :=
  let w1 := notify_state { w with g_state := "CONNECTING" }
  if wifi_connect env ≠ ConnectResult.REQUESTED then
    notify_state { w1 with g_state := "UNCONFIGURED" }
  else w1

/-- `on_ipv4_ready` (wifi_state_dispatcher.cpp lines 27-78): query
NetworkManager for wlan0's active SSID (default `"unknown"`) and first
IPv4 address; when the address is non-empty publish CONNECTED. -/
def on_ipv4_ready (env : Env) (w : World) : World :=
  if !env.nm_ok then w
  else if !env.wlan0_wifi then w
  else
    let ssid := match env.apSsid with
      | none => bytes "unknown"
      | some b => b
    if env.ip4 = [] then w
    else notify_state_connected ssid env.ip4 w

/-- `StartNotify` on the State characteristic: `characteristic.cpp`
sets `notifying := true` then invokes `on_state_notify(true)`
(state.cpp lines 82-100), which posts `on_ipv4_ready` onto the
dispatcher. -/
def start_notify_state (env : Env) (w : World) : World :=
  on_ipv4_ready env { w with notifying := true }

/-! ## Command characteristic (src/unnamed/part_001)

The WriteValue handler decodes the `ay` payload into a byte string,
extracts `op` (falling back to the legacy `cmd` aliases) with a minimal
quoted-string extractor, and dispatches. -/

/-- `std::string::find(needle, start)`: least index `i ≥ start` at
which `needle` occurs in `hay`, if any. -/
def strFind (hay needle : List Nat) (start : Nat) : Option Nat :=
  (List.range hay.length).find?
    (fun i => decide (start ≤ i) && needle.isPrefixOf (hay.drop i))

/-- `json_get_string` (part_001 lines 65-89): find `"key"`, then `:`,
then the first `"…"` after the colon; empty result on any failure or
on an empty value. -/
def json_get_string (payload : List Nat) (key : List Nat) : List Nat :=
  let needle := [0x22] ++ key ++ [0x22]
  match strFind payload needle 0 with
  | none => []
  | some k =>
    match strFind payload [0x3A] (k + needle.length) with
    | none => []
    | some colon =>
      match strFind payload [0x22] (colon + 1) with
      | none => []
      | some q1 =>
        match strFind payload [0x22] (q1 + 1) with
        | none => []
        | some q2 =>
          if q2 ≤ q1 + 1 then []
          else (payload.drop (q1 + 1)).take (q2 - (q1 + 1))

/-- The op resolution of `on_write_command` (part_001 lines 105-115):
the `op` field, or when it is empty the legacy `cmd` aliases. -/
def resolve_op (payload : List Nat) : List Nat :=
  let op := json_get_string payload (bytes "op")
  if op = [] then
    let cmd := json_get_string payload (bytes "cmd")
    if cmd = bytes "wifi.scan" then bytes "wifi_scan"
    else if cmd = bytes "wifi.connect" then bytes "wifi_connect"
    else op
  else op

/-- The dispatch part of `on_write_command` (part_001 lines 117-153),
given the resolved op. -/
def dispatch_op (env : Env) (op payload : List Nat) (w : World) : World :=
  if op = bytes "wifi_scan" then handle_wifi_scan_request env w
  else if op = bytes "wifi_connect" then
    let ssid := json_get_string payload (bytes "ssid")
    if ssid = [] then w
    else handle_wifi_connect_request env ssid
      (json_get_string payload (bytes "psk")) w
  else w

/-- `on_write_command` (part_001 lines 94-154).  `ay_to_string` keeps
the raw bytes, so the payload is passed through unchanged; an empty
payload only logs. -/
def on_write_command (env : Env) (payload : List Nat) (w : World) : World :=
  if payload = [] then w
  else dispatch_op env (resolve_op payload) payload w

/-! ## Further definitions used by the statements and proofs -/

/-- The entry string built at the head of the loop. -/
def loopEntry (first : Bool) (s : List Nat) : List Nat :=
  (if first then [] else [0x2C]) ++ [0x22] ++ json_escape s ++ [0x22]

/-- Lookup in the best-strength association list. -/
def lookupB : List (List Nat × Nat) → List Nat → Option Nat
  | [], _ => none
  | (k, v) :: rest, s => if k = s then some v else lookupB rest s

/-- The strongest strength among the occurrences of SSID `s` in an
access-point list, if it occurs at all. -/
def maxStr : List (List Nat × Nat) → List Nat → Option Nat
  | [], _ => none
  | p :: rest, s =>
    if p.1 = s then
      some (match maxStr rest s with
            | none => p.2
            | some v => max p.2 v)
    else maxStr rest s

/-- Combine the strength known before the fold with the strength found
during the fold. -/
def mergeOpt : Option Nat → Option Nat → Option Nat
  | a, none => a
  | none, some v => some v
  | some a, some v => some (max a v)

/-- The active-AP SSID reported by `on_ipv4_ready`: the default
`"unknown"` unless the active access point supplies SSID bytes. -/
def ssidOrUnknown (env : Env) : List Nat :=
  match env.apSsid with
  | none => bytes "unknown"
  | some b => b

/-! ## Helper lemmas: json_escape and make_ay -/

lemma escStep_eq (out : List Nat) (c : Nat) :
    escStep out c = out ++ escByteSpec c := by
  unfold escStep escByteSpec
  split_ifs <;> rfl

lemma foldl_escStep (s : List Nat) :
    ∀ out : List Nat, s.foldl escStep out = out ++ (s.map escByteSpec).flatten := by
  induction s with
  | nil => intro out; simp
  | cons c s ih =>
    intro out
    simp only [List.foldl_cons, List.map_cons, List.flatten_cons]
    rw [ih, escStep_eq, List.append_assoc]

lemma json_escape_eq (s : List Nat) :
    json_escape s = (s.map escByteSpec).flatten := by
  simpa using foldl_escStep s []

lemma escByteSpec_ne_zero (b : Nat) : ∀ x ∈ escByteSpec b, x ≠ 0 := by
  unfold escByteSpec
  split_ifs with h1 h2 h3 h4 h5 h6 <;> intro x hx <;> simp at hx <;> omega

lemma json_escape_ne_zero (s : List Nat) : ∀ x ∈ json_escape s, x ≠ 0 := by
  intro x hx
  rw [json_escape_eq] at hx
  obtain ⟨l, hl, hxl⟩ := List.mem_flatten.1 hx
  obtain ⟨b, _, rfl⟩ := List.mem_map.1 hl
  exact escByteSpec_ne_zero b x hxl

lemma make_ay_eq_self {l : List Nat} (h : ∀ x ∈ l, x ≠ 0) :
    make_ay l = l := by
  induction l with
  | nil => rfl
  | cons a l ih =>
    have ha : (a != 0) = true := by
      simpa using h a (List.mem_cons_self a l)
    simp only [make_ay, List.takeWhile_cons, ha, if_true]
    exact congrArg (a :: ·) (ih fun x hx => h x (List.mem_cons_of_mem a hx))

lemma make_ay_connectedJson (ssid ip : List Nat) :
    make_ay (connectedJson ssid ip) = connectedJson ssid ip := by
  apply make_ay_eq_self
  intro x hx
  unfold connectedJson at hx
  simp only [List.mem_append] at hx
  rcases hx with ((((h | h) | h) | h) | h)
  · revert h
    have : ∀ y ∈ bytes "\x7b\"state\":\"CONNECTED\",\"ssid\":\"", y ≠ 0 := by decide
    exact fun h => this x h
  · exact json_escape_ne_zero ssid x h
  · revert h
    have : ∀ y ∈ bytes "\",\"ip\":\"", y ≠ 0 := by decide
    exact fun h => this x h
  · exact json_escape_ne_zero ip x h
  · revert h
    have : ∀ y ∈ bytes "\"\x7d", y ≠ 0 := by decide
    exact fun h => this x h

/-! ## Helper lemmas: the scan payload builder -/

lemma commaJoin_append_single (l : List (List Nat)) (e : List Nat) :
    commaJoin (l ++ [e]) =
      commaJoin l ++ (if l = [] then [] else [0x2C]) ++ e := by
  induction l with
  | nil => simp [commaJoin]
  | cons x xs ih =>
    cases xs with
    | nil => simp [commaJoin]
    | cons y ys =>
      simp only [List.cons_append, commaJoin, List.append_eq] at ih ⊢
      rw [ih]
      simp [List.append_assoc]

lemma renderBody_append_single (l : List (List Nat)) (s : List Nat) :
    renderBody (l ++ [s]) =
      renderBody l ++ ((if l = [] then [] else [0x2C]) ++ quotedEsc s) := by
  unfold renderBody
  rw [List.map_append, List.map_singleton, commaJoin_append_single]
  by_cases h : l = [] <;> simp [h, List.map_eq_nil_iff, List.append_assoc]

lemma render_length (l : List (List Nat)) :
    (render l).length = (renderBody l).length + 2 := by
  simp [render, scanFooter, bytes]

lemma buildLoop_cons (s : List Nat) (rs : List (List Nat))
    (payload : List Nat) (first : Bool) :
    buildLoop (s :: rs) payload first =
      if payload.length + (loopEntry first s).length + 2 > MAX_NOTIFY_BYTES
      then payload ++ scanFooter
      else buildLoop rs (payload ++ loopEntry first s) false := rfl

lemma loopEntry_eq (first : Bool) (s : List Nat) :
    loopEntry first s = (if first then [] else [0x2C]) ++ quotedEsc s := by
  unfold loopEntry quotedEsc
  by_cases h : first <;> simp [h, List.append_assoc]

lemma renderBody_snoc (done : List (List Nat)) (s : List Nat) :
    renderBody (done ++ [s]) =
      renderBody done ++ loopEntry done.isEmpty s := by
  rw [renderBody_append_single, loopEntry_eq]
  by_cases h : done = [] <;> simp [h]

lemma buildLoop_spec :
    ∀ (rest done : List (List Nat)),
    (renderBody done).length + 2 ≤ 200 →
    ∃ k, k ≤ rest.length ∧
      buildLoop rest (renderBody done) done.isEmpty =
        renderBody (done ++ rest.take k) ++ scanFooter ∧
      (renderBody (done ++ rest.take k)).length + 2 ≤ 200 ∧
      (k < rest.length →
        (renderBody (done ++ rest.take (k + 1))).length + 2 > 200) := by
  intro rest
  induction rest with
  | nil =>
    intro done hdone
    exact ⟨0, Nat.le_refl _, by simp [buildLoop], by simpa using hdone,
      fun h => absurd h (Nat.not_lt_zero 0)⟩
  | cons s rs ih =>
    intro done hdone
    have hElen : (renderBody (done ++ [s])).length =
        (renderBody done).length + (loopEntry done.isEmpty s).length := by
      rw [renderBody_snoc, List.length_append]
    rw [buildLoop_cons]
    by_cases hc : (renderBody done).length +
        (loopEntry done.isEmpty s).length + 2 > MAX_NOTIFY_BYTES
    · refine ⟨0, Nat.zero_le _, ?_, by simpa using hdone, fun _ => ?_⟩
      · rw [if_pos hc]
        simp
      · simp only [List.take_succ_cons, List.take_zero]
        rw [hElen]
        unfold MAX_NOTIFY_BYTES at hc
        omega
    · rw [if_neg hc]
      have hfit : (renderBody (done ++ [s])).length + 2 ≤ 200 := by
        rw [hElen]
        unfold MAX_NOTIFY_BYTES at hc
        omega
      rw [← renderBody_snoc]
      obtain ⟨k, hk, heq, hlen, hover⟩ := ih (done ++ [s]) hfit
      have hne : (done ++ [s]).isEmpty = false := by simp
      rw [hne] at heq
      refine ⟨k + 1, Nat.succ_le_succ hk, ?_, ?_, ?_⟩
      · rw [heq]
        simp [List.append_assoc]
      · have harr : done ++ (s :: rs).take (k + 1) =
            (done ++ [s]) ++ rs.take k := by
          simp
        rw [harr]
        exact hlen
      · intro hlt
        have harr : done ++ (s :: rs).take (k + 1 + 1) =
            (done ++ [s]) ++ rs.take (k + 1) := by
          simp
        rw [harr]
        exact hover (Nat.lt_of_succ_lt_succ hlt)

/-- The builder always produces a greedy prefix of the SSID list:
the payload is the rendering of `take k`, it fits in 200 bytes, and if
anything was left out the very next entry would overflow the cap. -/
lemma build_greedy (ssids : List (List Nat)) :
    ∃ k, k ≤ ssids.length ∧
      build_wifi_scan_payload ssids = render (ssids.take k) ∧
      (render (ssids.take k)).length ≤ 200 ∧
      (k < ssids.length → (render (ssids.take (k + 1))).length > 200) := by
  have hbody : renderBody [] = scanHeader := by
    simp [renderBody, commaJoin]
  have hlen : (renderBody []).length + 2 ≤ 200 := by
    rw [hbody]
    decide
  obtain ⟨k, hk, heq, hfit, hover⟩ := buildLoop_spec ssids [] hlen
  refine ⟨k, hk, ?_, ?_, ?_⟩
  · have : build_wifi_scan_payload ssids =
        buildLoop ssids (renderBody []) ([] : List (List Nat)).isEmpty := by
      rw [hbody]
      rfl
    rw [this, heq]
    simp [render]
  · rw [render_length]
    simpa using hfit
  · intro h
    rw [render_length]
    have := hover h
    simpa using this

lemma scanHeader_ne_zero : ∀ x ∈ scanHeader, x ≠ 0 := by decide

lemma scanFooter_ne_zero : ∀ x ∈ scanFooter, x ≠ 0 := by decide

lemma loopEntry_ne_zero (first : Bool) (s : List Nat) :
    ∀ x ∈ loopEntry first s, x ≠ 0 := by
  intro x hx
  unfold loopEntry at hx
  simp only [List.mem_append] at hx
  rcases hx with ((h | h) | h) | h
  · by_cases hf : first <;> simp [hf] at h <;> omega
  · simp at h
    omega
  · exact json_escape_ne_zero s x h
  · simp at h
    omega

lemma buildLoop_ne_zero :
    ∀ (rest : List (List Nat)) (payload : List Nat) (first : Bool),
    (∀ x ∈ payload, x ≠ 0) → ∀ x ∈ buildLoop rest payload first, x ≠ 0 := by
  intro rest
  induction rest with
  | nil =>
    intro payload first hp x hx
    simp only [buildLoop, List.mem_append] at hx
    rcases hx with h | h
    · exact hp x h
    · exact scanFooter_ne_zero x h
  | cons s rs ih =>
    intro payload first hp x hx
    rw [buildLoop_cons] at hx
    by_cases hc : payload.length + (loopEntry first s).length + 2 >
        MAX_NOTIFY_BYTES
    · rw [if_pos hc] at hx
      rcases List.mem_append.1 hx with h | h
      · exact hp x h
      · exact scanFooter_ne_zero x h
    · rw [if_neg hc] at hx
      refine ih _ false ?_ x hx
      intro y hy
      rcases List.mem_append.1 hy with h | h
      · exact hp y h
      · exact loopEntry_ne_zero first s y h

lemma make_ay_build (ssids : List (List Nat)) :
    make_ay (build_wifi_scan_payload ssids) = build_wifi_scan_payload ssids :=
  make_ay_eq_self
    (buildLoop_ne_zero ssids scanHeader true scanHeader_ne_zero)

lemma make_ay_scanning :
    make_ay (stateJson "SCANNING") = stateJson "SCANNING" := by decide

lemma make_ay_scan_complete :
    make_ay (stateJson "SCAN_COMPLETE") = stateJson "SCAN_COMPLETE" := by
  decide

lemma make_ay_connecting :
    make_ay (stateJson "CONNECTING") = stateJson "CONNECTING" := by decide

lemma make_ay_unconfigured :
    make_ay (stateJson "UNCONFIGURED") = stateJson "UNCONFIGURED" := by decide

/-! ## Helper lemmas: the scan dedup/sort core -/

lemma max_of_gt_ite (st v : Nat) : (if st > v then st else v) = max v st := by
  rw [Nat.max_def]
  split <;> split <;> omega

lemma lookupB_insert (m : List (List Nat × Nat)) (s : List Nat) (st : Nat)
    (s2 : List Nat) :
    lookupB (insert_best m s st) s2 =
      if s = s2 then
        some (match lookupB m s with
              | none => st
              | some v => max v st)
      else lookupB m s2 := by
  induction m with
  | nil =>
    by_cases h : s = s2
    · subst h
      simp [insert_best, lookupB]
    · simp [insert_best, lookupB, h]
  | cons p rest ih =>
    obtain ⟨k, v⟩ := p
    simp only [insert_best]
    by_cases hk : k = s
    · subst hk
      rw [if_pos rfl]
      by_cases h2 : k = s2
      · subst h2
        simp [lookupB, max_of_gt_ite]
      · simp [lookupB, h2]
    · rw [if_neg hk]
      have hsk : ¬s = k := fun h => hk h.symm
      by_cases h2 : k = s2
      · subst h2
        simp [lookupB, hsk]
      · simp [lookupB, h2, hk, ih]

lemma keys_insert (m : List (List Nat × Nat)) (s : List Nat) (st : Nat) :
    (insert_best m s st).map Prod.fst =
      if s ∈ m.map Prod.fst then m.map Prod.fst
      else m.map Prod.fst ++ [s] := by
  induction m with
  | nil => simp [insert_best]
  | cons p rest ih =>
    obtain ⟨k, v⟩ := p
    simp only [insert_best]
    by_cases hk : k = s
    · subst hk
      rw [if_pos rfl]
      simp
    · rw [if_neg hk]
      simp only [List.map_cons]
      rw [ih]
      have hsk : ¬s = k := fun h => hk h.symm
      by_cases hs : s ∈ rest.map Prod.fst
      · simp [hs, hsk]
      · simp [hs, hsk]

lemma keys_insert_nodup (m : List (List Nat × Nat)) (s : List Nat)
    (st : Nat) (h : (m.map Prod.fst).Nodup) :
    ((insert_best m s st).map Prod.fst).Nodup := by
  rw [keys_insert]
  by_cases hs : s ∈ m.map Prod.fst
  · simpa [hs] using h
  · rw [if_neg hs]
    rw [List.nodup_append]
    exact ⟨h, List.nodup_singleton s, by simpa using hs⟩

lemma mem_of_lookupB {m : List (List Nat × Nat)} {s : List Nat} {v : Nat}
    (h : lookupB m s = some v) : (s, v) ∈ m := by
  induction m with
  | nil => simp [lookupB] at h
  | cons p rest ih =>
    obtain ⟨k, w⟩ := p
    by_cases hk : k = s
    · subst hk
      have : (if k = k then some w else lookupB rest k) = some v := h
      rw [if_pos rfl] at this
      obtain rfl : w = v := Option.some.inj this
      exact List.mem_cons_self _ _
    · have : (if k = s then some w else lookupB rest s) = some v := h
      rw [if_neg hk] at this
      exact List.mem_cons_of_mem _ (ih this)

lemma lookupB_of_mem {m : List (List Nat × Nat)} {s : List Nat} {v : Nat}
    (hnd : (m.map Prod.fst).Nodup) (h : (s, v) ∈ m) :
    lookupB m s = some v := by
  induction m with
  | nil => simp at h
  | cons p rest ih =>
    obtain ⟨k, w⟩ := p
    rw [List.map_cons, List.nodup_cons] at hnd
    obtain ⟨hknot, hrest⟩ := hnd
    rcases List.mem_cons.1 h with heq | hmem
    · cases heq
      show (if s = s then some v else lookupB rest s) = some v
      rw [if_pos rfl]
    · have hk : k ≠ s := by
        intro hks
        subst hks
        exact hknot (List.mem_map.2 ⟨(k, v), hmem, rfl⟩)
      show (if k = s then some w else lookupB rest s) = some v
      rw [if_neg hk]
      exact ih hrest hmem

lemma maxStr_mem {aps : List (List Nat × Nat)} {s : List Nat} {v : Nat}
    (h : maxStr aps s = some v) : (s, v) ∈ aps := by
  induction aps generalizing v with
  | nil => simp [maxStr] at h
  | cons p rest ih =>
    obtain ⟨ps, pv⟩ := p
    by_cases hp : ps = s
    · subst hp
      rw [maxStr, if_pos rfl] at h
      cases hrest : maxStr rest ps with
      | none =>
        rw [hrest] at h
        have h2 : pv = v := Option.some.inj h
        exact List.mem_cons.2 (Or.inl (by rw [← h2]))
      | some w =>
        rw [hrest] at h
        have h2 : max pv w = v := Option.some.inj h
        rcases Nat.le_total w pv with hle | hle
        · have hmx : max pv w = pv := Nat.max_eq_left hle
          rw [hmx] at h2
          exact List.mem_cons.2 (Or.inl (by rw [← h2]))
        · have hmx : max pv w = w := Nat.max_eq_right hle
          rw [hmx] at h2
          rw [← h2]
          exact List.mem_cons_of_mem _ (ih hrest)
    · rw [maxStr, if_neg hp] at h
      exact List.mem_cons_of_mem _ (ih h)

lemma maxStr_isSome {aps : List (List Nat × Nat)} {s : List Nat} {v2 : Nat}
    (h : (s, v2) ∈ aps) : ∃ v, maxStr aps s = some v := by
  induction aps with
  | nil => simp at h
  | cons p rest ih =>
    obtain ⟨ps, pv⟩ := p
    by_cases hp : ps = s
    · exact ⟨_, by rw [maxStr, if_pos hp]⟩
    · rcases List.mem_cons.1 h with heq | hmem
      · exact absurd (congrArg Prod.fst heq).symm hp
      · obtain ⟨v, hv⟩ := ih hmem
        exact ⟨v, by rw [maxStr, if_neg hp]; exact hv⟩

lemma maxStr_ub {aps : List (List Nat × Nat)} {s : List Nat} {v : Nat}
    (h : maxStr aps s = some v) :
    ∀ v2, (s, v2) ∈ aps → v2 ≤ v := by
  induction aps generalizing v with
  | nil => simp
  | cons p rest ih =>
    obtain ⟨ps, pv⟩ := p
    intro v2 hv2
    by_cases hp : ps = s
    · subst hp
      rw [maxStr, if_pos rfl] at h
      rcases List.mem_cons.1 hv2 with heq | hmem
      · have hv2p : v2 = pv := congrArg Prod.snd heq
        cases hrest : maxStr rest ps with
        | none =>
          rw [hrest] at h
          have h2 : pv = v := Option.some.inj h
          omega
        | some w =>
          rw [hrest] at h
          have h2 : max pv w = v := Option.some.inj h
          have h3 : pv ≤ max pv w := Nat.le_max_left pv w
          omega
      · obtain ⟨w, hw⟩ := maxStr_isSome hmem
        rw [hw] at h
        have h2 : max pv w = v := Option.some.inj h
        have h1 : v2 ≤ w := ih hw v2 hmem
        have h3 : w ≤ max pv w := Nat.le_max_right pv w
        omega
    · rw [maxStr, if_neg hp] at h
      rcases List.mem_cons.1 hv2 with heq | hmem
      · exact absurd (congrArg Prod.fst heq).symm hp
      · exact ih h v2 hmem

lemma lookupB_foldl_nil_key :
    ∀ (aps : List (List Nat × Nat)) (m : List (List Nat × Nat)),
    lookupB (aps.foldl scanStep m) [] = lookupB m [] := by
  intro aps
  induction aps with
  | nil => intro m; rfl
  | cons p rest ih =>
    intro m
    rw [List.foldl_cons, ih]
    unfold scanStep
    by_cases hp : p.1 = []
    · rw [if_pos hp]
    · rw [if_neg hp, lookupB_insert, if_neg hp]

lemma lookupB_foldl :
    ∀ (aps : List (List Nat × Nat)) (m : List (List Nat × Nat))
      (s : List Nat), s ≠ [] →
    lookupB (aps.foldl scanStep m) s = mergeOpt (lookupB m s) (maxStr aps s) := by
  intro aps
  induction aps with
  | nil =>
    intro m s _
    cases h : lookupB m s <;> simp [maxStr, mergeOpt, h]
  | cons p rest ih =>
    intro m s hs
    rw [List.foldl_cons, ih _ s hs]
    unfold scanStep
    by_cases hp : p.1 = []
    · rw [if_pos hp, maxStr, if_neg (by rw [hp]; exact fun h => hs h.symm)]
    · rw [if_neg hp, lookupB_insert]
      by_cases hps : p.1 = s
      · rw [if_pos hps, maxStr, if_pos hps, hps]
        cases hm : lookupB m s with
        | none =>
          cases hr : maxStr rest s with
          | none => rfl
          | some w => rfl
        | some a =>
          cases hr : maxStr rest s with
          | none => rfl
          | some w =>
            show some (max (max a p.2) w) = some (max a (max p.2 w))
            rw [Nat.max_assoc]
      · rw [if_neg hps, maxStr, if_neg hps]

lemma keys_foldl_nodup :
    ∀ (aps : List (List Nat × Nat)) (m : List (List Nat × Nat)),
    ((m.map Prod.fst).Nodup) → (((aps.foldl scanStep m).map Prod.fst).Nodup) := by
  intro aps
  induction aps with
  | nil => intro m h; exact h
  | cons p rest ih =>
    intro m h
    rw [List.foldl_cons]
    refine ih _ ?_
    unfold scanStep
    by_cases hp : p.1 = []
    · rwa [if_pos hp]
    · rw [if_neg hp]
      exact keys_insert_nodup m p.1 p.2 h

lemma bestMap_keys_nodup (aps : List (List Nat × Nat)) :
    ((bestMap aps).map Prod.fst).Nodup :=
  keys_foldl_nodup aps [] (by simp)

lemma bestMap_lookup (aps : List (List Nat × Nat)) (s : List Nat)
    (hs : s ≠ []) : lookupB (bestMap aps) s = maxStr aps s := by
  rw [bestMap, lookupB_foldl aps [] s hs]
  cases h : maxStr aps s <;> simp [mergeOpt, lookupB]

lemma bestMap_mem (aps : List (List Nat × Nat)) (s : List Nat) (st : Nat) :
    (s, st) ∈ bestMap aps ↔ (s ≠ [] ∧ maxStr aps s = some st) := by
  constructor
  · intro h
    have hlk : lookupB (bestMap aps) s = some st :=
      lookupB_of_mem (bestMap_keys_nodup aps) h
    by_cases hs : s = []
    · subst hs
      rw [bestMap, lookupB_foldl_nil_key] at hlk
      simp [lookupB] at hlk
    · exact ⟨hs, by rw [← bestMap_lookup aps s hs]; exact hlk⟩
  · rintro ⟨hs, hmax⟩
    exact mem_of_lookupB (by rw [bestMap_lookup aps s hs]; exact hmax)

/-! ## Claim theorems -/

/-- Claim C5: for every multiset of observed access points, the scan
utility's core returns SSIDs each appearing at most once, membership is
exactly the non-empty SSIDs observed, the underlying (ssid, strength)
pairs are sorted by descending strength, and each SSID is ranked by the
strongest signal among its duplicates. -/
theorem claim_C5 (aps : List (List Nat × Nat)) :
    (scan_core aps).Nodup ∧
    (∀ s, s ∈ scan_core aps ↔ (s ≠ [] ∧ ∃ st, (s, st) ∈ aps)) ∧
    (sortPairs (bestMap aps)).Sorted strengthGe ∧
    (∀ s st, (s, st) ∈ sortPairs (bestMap aps) →
      ((s, st) ∈ aps ∧ ∀ st2, (s, st2) ∈ aps → st2 ≤ st)) ∧
    scan_core aps = (sortPairs (bestMap aps)).map Prod.fst := by
  have hperm : (sortPairs (bestMap aps)).Perm (bestMap aps) :=
    List.perm_insertionSort strengthGe (bestMap aps)
  refine ⟨?_, ?_, ?_, ?_, rfl⟩
  · exact ((hperm.map Prod.fst).symm).nodup (bestMap_keys_nodup aps)
  · intro s
    constructor
    · intro hs
      obtain ⟨p, hp, hps⟩ := List.mem_map.1 hs
      have hpair : (s, p.2) ∈ sortPairs (bestMap aps) := by
        rw [← hps]
        exact hp
      have hmem : (s, p.2) ∈ bestMap aps := hperm.mem_iff.1 hpair
      obtain ⟨hne, hmax⟩ := (bestMap_mem aps s p.2).1 hmem
      exact ⟨hne, p.2, maxStr_mem hmax⟩
    · rintro ⟨hne, st2, hst2⟩
      obtain ⟨v, hv⟩ := maxStr_isSome hst2
      have h1 : (s, v) ∈ bestMap aps := (bestMap_mem aps s v).2 ⟨hne, hv⟩
      have h2 : (s, v) ∈ sortPairs (bestMap aps) := hperm.mem_iff.2 h1
      exact List.mem_map.2 ⟨(s, v), h2, rfl⟩
  · exact List.sorted_insertionSort strengthGe (bestMap aps)
  · intro s st hmem
    have h2 : (s, st) ∈ bestMap aps := hperm.mem_iff.1 hmem
    obtain ⟨hne, hmax⟩ := (bestMap_mem aps s st).1 h2
    exact ⟨maxStr_mem hmax, maxStr_ub hmax⟩

/-- Witness for C5 on the spec's scenario A access points. -/
theorem claim_C5_witness :
    scan_core [(bytes "HomeNet", 80), (bytes "HomeNet", 60),
      (bytes "Cafe", 40)] = [bytes "HomeNet", bytes "Cafe"] ∧
    (scan_core [(bytes "HomeNet", 80), (bytes "HomeNet", 60),
      (bytes "Cafe", 40)]).Nodup :=
  ⟨by decide, (claim_C5 _).1⟩

/-- Claim C3: the scan-result payload is at most 200 bytes including
the closing bracket-brace; it renders a prefix of the SSID list (whole
entries, in list order) and stops exactly before the first entry whose
inclusion would push the total past 200 bytes. -/
theorem claim_C3 (ssids : List (List Nat)) :
    (build_wifi_scan_payload ssids).length ≤ 200 ∧
    ∃ k, k ≤ ssids.length ∧
      build_wifi_scan_payload ssids = render (ssids.take k) ∧
      (k < ssids.length → (render (ssids.take (k + 1))).length > 200) := by
  obtain ⟨k, hk, heq, hfit, hover⟩ := build_greedy ssids
  exact ⟨by rw [heq]; exact hfit, k, hk, heq, hover⟩

/-- Witness for C3 on the spec's scenario A SSID list. -/
theorem claim_C3_witness :
    (build_wifi_scan_payload [bytes "HomeNet", bytes "Cafe"]).length ≤ 200 ∧
    build_wifi_scan_payload [bytes "HomeNet", bytes "Cafe"] =
      bytes "\x7b\"op\":\"wifi_scan\",\"ssids\":[\"HomeNet\",\"Cafe\"]\x7d" :=
  ⟨(claim_C3 _).1, by decide⟩

/-- Claim C7: `json_escape` is the per-byte map that escapes backslash,
quote, newline, carriage return and tab, replaces any other byte below
0x20 with a question mark, and leaves all other bytes unchanged. -/
theorem claim_C7 (bs : List Nat) :
    json_escape bs = (bs.map escByteSpec).flatten ∧
    escByteSpec 0x5C = [0x5C, 0x5C] ∧
    escByteSpec 0x22 = [0x5C, 0x22] ∧
    escByteSpec 0x0A = [0x5C, 0x6E] ∧
    escByteSpec 0x0D = [0x5C, 0x72] ∧
    escByteSpec 0x09 = [0x5C, 0x74] ∧
    (∀ b, b < 0x20 → b ≠ 0x0A → b ≠ 0x0D → b ≠ 0x09 →
      escByteSpec b = [0x3F]) ∧
    (∀ b, 0x20 ≤ b → b ≠ 0x5C → b ≠ 0x22 → escByteSpec b = [b]) := by
  refine ⟨json_escape_eq bs, by decide, by decide, by decide, by decide,
    by decide, ?_, ?_⟩
  · intro b h1 h2 h3 h4
    unfold escByteSpec
    rw [if_neg (by omega), if_neg (by omega), if_neg h2, if_neg h3,
      if_neg h4, if_pos h1]
  · intro b h1 h2 h3
    unfold escByteSpec
    rw [if_neg h2, if_neg h3, if_neg (by omega), if_neg (by omega),
      if_neg (by omega), if_neg (by omega)]

/-- Witness for C7 evaluating the escape on a byte sequence exercising
every category. -/
theorem claim_C7_witness :
    json_escape [0x5C, 0x22, 0x0A, 0x0D, 0x09, 0x00, 0x1F, 0x41, 0xFF] =
      [0x5C, 0x5C, 0x5C, 0x22, 0x5C, 0x6E, 0x5C, 0x72, 0x5C, 0x74,
        0x3F, 0x3F, 0x41, 0xFF] ∧
    json_escape [0x5C, 0x22, 0x0A, 0x0D, 0x09, 0x00, 0x1F, 0x41, 0xFF] =
      (([0x5C, 0x22, 0x0A, 0x0D, 0x09, 0x00, 0x1F, 0x41,
        0xFF] : List Nat).map escByteSpec).flatten :=
  ⟨by decide, (claim_C7 _).1⟩

/-! ## World-level helper lemmas -/

lemma notify_cv_emitted (w : World) (v : List Nat) :
    (notify_characteristic_value w v).emitted =
      if w.notifying then w.emitted ++ [v] else w.emitted := by
  unfold notify_characteristic_value
  by_cases h : w.notifying <;> simp [h]

lemma notify_cv_g_state (w : World) (v : List Nat) :
    (notify_characteristic_value w v).g_state = w.g_state := by
  unfold notify_characteristic_value
  by_cases h : w.notifying <;> simp [h]

lemma notify_cv_notifying (w : World) (v : List Nat) :
    (notify_characteristic_value w v).notifying = w.notifying := by
  unfold notify_characteristic_value
  by_cases h : w.notifying <;> simp [h]

lemma notify_cv_scan_busy (w : World) (v : List Nat) :
    (notify_characteristic_value w v).scan_busy = w.scan_busy := by
  unfold notify_characteristic_value
  by_cases h : w.notifying <;> simp [h]

lemma handle_scan_facts (env : Env) (w : World) (hn : w.notifying = true) :
    (handle_wifi_scan_request env w).emitted =
      w.emitted ++ [stateJson "SCANNING",
        build_wifi_scan_payload (scan_ssids env w.scan_busy).result,
        stateJson "SCAN_COMPLETE"] ∧
    (handle_wifi_scan_request env w).g_state = "SCAN_COMPLETE" := by
  unfold handle_wifi_scan_request notify_state
  constructor
  · simp [notify_cv_emitted, notify_cv_g_state, notify_cv_notifying,
      notify_cv_scan_busy, hn, make_ay_scanning, make_ay_scan_complete,
      make_ay_build, List.append_assoc]
  · simp [notify_cv_g_state]

/-- Claim C1: a Command write whose payload carries `op = "wifi_scan"`
makes the handler publish, in order, the SCANNING notification, one
SSID-list payload of the form header ++ entries ++ footer, and the
SCAN_COMPLETE notification, and leaves the state at SCAN_COMPLETE
(stated with notifications enabled on the State characteristic, since
`notify_characteristic_value` drops emissions otherwise). -/
theorem claim_C1 (env : Env) (p : List Nat) (w : World)
    (hn : w.notifying = true)
    (hop : json_get_string p (bytes "op") = bytes "wifi_scan") :
    (on_write_command env p w).emitted =
      w.emitted ++ [stateJson "SCANNING",
        build_wifi_scan_payload (scan_ssids env w.scan_busy).result,
        stateJson "SCAN_COMPLETE"] ∧
    (on_write_command env p w).g_state = "SCAN_COMPLETE" ∧
    ∃ mid, build_wifi_scan_payload (scan_ssids env w.scan_busy).result =
      scanHeader ++ mid ++ scanFooter := by
  have hne : p ≠ [] := by
    intro h
    rw [h] at hop
    exact absurd hop (by decide)
  have hres : resolve_op p = bytes "wifi_scan" := by
    unfold resolve_op
    rw [hop]
    rw [if_neg (by decide)]
  have hrun : on_write_command env p w = handle_wifi_scan_request env w := by
    unfold on_write_command
    rw [if_neg hne, hres]
    unfold dispatch_op
    rw [if_pos rfl]
  obtain ⟨hem, hgs⟩ := handle_scan_facts env w hn
  rw [hrun]
  refine ⟨hem, hgs, ?_⟩
  obtain ⟨k, _, heq, _, _⟩ :=
    build_greedy (scan_ssids env w.scan_busy).result
  exact ⟨commaJoin ((((scan_ssids env w.scan_busy).result).take k).map
    quotedEsc), by rw [heq]; rfl⟩

/-- Witness for C1: scenario A (two APs named HomeNet plus Cafe),
subscribed State characteristic, canonical scan command. -/
theorem claim_C1_witness :
    ({ initWorld with notifying := true } : World).notifying = true ∧
    json_get_string (bytes "\x7b\"op\":\"wifi_scan\"\x7d") (bytes "op") =
      bytes "wifi_scan" ∧
    (on_write_command
        (Env.mk true true
          (some [(bytes "HomeNet", 80), (bytes "HomeNet", 60),
            (bytes "Cafe", 40)])
          true (some (bytes "HomeNet")) (bytes "192.168.1.20"))
        (bytes "\x7b\"op\":\"wifi_scan\"\x7d")
        { initWorld with notifying := true }).g_state = "SCAN_COMPLETE" :=
  ⟨rfl, by decide,
    (claim_C1
      (Env.mk true true
        (some [(bytes "HomeNet", 80), (bytes "HomeNet", 60),
          (bytes "Cafe", 40)])
        true (some (bytes "HomeNet")) (bytes "192.168.1.20"))
      (bytes "\x7b\"op\":\"wifi_scan\"\x7d")
      { initWorld with notifying := true }
      rfl (by decide)).2.1⟩

/-- Claim C4: a wifi_connect request first publishes CONNECTING; when
the synchronous submission result is anything other than REQUESTED the
state reverts to UNCONFIGURED and that revert is published; otherwise
the state stays CONNECTING with no further notification (stated with
notifications enabled on the State characteristic). -/
theorem claim_C4 (env : Env) (ssid psk : List Nat) (w : World)
    (hn : w.notifying = true) (hs : ssid ≠ []) :
    (handle_wifi_connect_request env ssid psk w).g_state =
      (if wifi_connect env = ConnectResult.REQUESTED then "CONNECTING"
       else "UNCONFIGURED") ∧
    (handle_wifi_connect_request env ssid psk w).emitted =
      w.emitted ++
        (if wifi_connect env = ConnectResult.REQUESTED
         then [stateJson "CONNECTING"]
         else [stateJson "CONNECTING", stateJson "UNCONFIGURED"]) := by
  unfold handle_wifi_connect_request notify_state
  by_cases hr : wifi_connect env = ConnectResult.REQUESTED
  · rw [if_neg (by simp [hr])]
    refine ⟨?_, ?_⟩
    · simp [notify_cv_g_state, hr]
    · simp [notify_cv_emitted, hn, hr, make_ay_connecting]
  · rw [if_pos hr]
    refine ⟨?_, ?_⟩
    · simp [notify_cv_g_state, hr]
    · simp [notify_cv_emitted, notify_cv_g_state, notify_cv_notifying, hn,
        hr, make_ay_connecting, make_ay_unconfigured, List.append_assoc]

/-- Witness for C4: the REQUESTED branch on a healthy environment. -/
theorem claim_C4_witness :
    ({ initWorld with notifying := true } : World).notifying = true ∧
    bytes "HomeNet" ≠ [] ∧
    (handle_wifi_connect_request
        (Env.mk true true (some []) true none [])
        (bytes "HomeNet") (bytes "secret")
        { initWorld with notifying := true }).g_state = "CONNECTING" :=
  ⟨rfl, by decide, by
    have h := (claim_C4 (Env.mk true true (some []) true none [])
      (bytes "HomeNet") (bytes "secret")
      { initWorld with notifying := true } rfl (by decide)).1
    rw [h]
    decide⟩

/-- Claim C6: when the busy flag is held, a scan invocation returns
empty without touching the Wi-Fi layer and leaves the flag to its
holder; when the flag is free, the guard acquires it and every exit
path of the scan releases it, so a subsequent scan can acquire it
again. -/
theorem claim_C6 (env env2 : Env) (b : Bool) :
    (b = true → (scan_ssids env b).result = [] ∧
      (scan_ssids env b).touched = false ∧
      (scan_ssids env b).busy_after = true) ∧
    (b = false → (scan_ssids env b).acquired = true ∧
      (scan_ssids env b).busy_after = false) ∧
    (b = false →
      (scan_ssids env2 (scan_ssids env b).busy_after).acquired = true) := by
  have hfree : ∀ e : Env, (scan_ssids e false).acquired = true ∧
      (scan_ssids e false).busy_after = false := by
    intro e
    unfold scan_ssids
    rw [if_neg (by simp)]
    split_ifs <;> first
      | exact ⟨rfl, rfl⟩
      | (cases e.aps <;> exact ⟨rfl, rfl⟩)
  refine ⟨?_, ?_, ?_⟩
  · intro hb
    subst hb
    unfold scan_ssids
    rw [if_pos rfl]
    exact ⟨rfl, rfl, rfl⟩
  · intro hb
    subst hb
    exact hfree env
  · intro hb
    subst hb
    rw [(hfree env).2]
    exact (hfree env2).1

/-- Witness for C6: a scan while the flag is held, and release after a
free-flag scan, on a concrete environment. -/
theorem claim_C6_witness :
    ((scan_ssids (Env.mk true true (some [(bytes "HomeNet", 80)]) true
        none []) true).result = [] ∧
      (scan_ssids (Env.mk true true (some [(bytes "HomeNet", 80)]) true
        none []) true).touched = false ∧
      (scan_ssids (Env.mk true true (some [(bytes "HomeNet", 80)]) true
        none []) true).busy_after = true) ∧
    (scan_ssids (Env.mk true true (some [(bytes "HomeNet", 80)]) true
      none []) false).busy_after = false :=
  ⟨(claim_C6 (Env.mk true true (some [(bytes "HomeNet", 80)]) true
      none []) (Env.mk true true (some [(bytes "HomeNet", 80)]) true
      none []) true).1 rfl,
    ((claim_C6 (Env.mk true true (some [(bytes "HomeNet", 80)]) true
      none []) (Env.mk true true (some [(bytes "HomeNet", 80)]) true
      none []) false).2.1 rfl).2⟩

/-- Claim C8: a Command write that resolves to wifi_connect with an
empty extracted ssid leaves the world untouched: no state change, no
notification, no call into the connect handler. -/
theorem claim_C8 (env : Env) (p : List Nat) (w : World)
    (hop : resolve_op p = bytes "wifi_connect")
    (hssid : json_get_string p (bytes "ssid") = []) :
    on_write_command env p w = w := by
  have hne : p ≠ [] := by
    intro h
    rw [h] at hop
    exact absurd hop (by decide)
  unfold on_write_command
  rw [if_neg hne, hop]
  unfold dispatch_op
  rw [if_neg (by decide), if_pos rfl]
  show (if json_get_string p (bytes "ssid") = [] then w
    else handle_wifi_connect_request env (json_get_string p (bytes "ssid"))
      (json_get_string p (bytes "psk")) w) = w
  rw [if_pos hssid]

/-- Witness for C8: the canonical wifi_connect payload with an empty
ssid value. -/
theorem claim_C8_witness :
    resolve_op (bytes
      "\x7b\"op\":\"wifi_connect\",\"ssid\":\"\",\"psk\":\"x\"\x7d") =
      bytes "wifi_connect" ∧
    json_get_string (bytes
      "\x7b\"op\":\"wifi_connect\",\"ssid\":\"\",\"psk\":\"x\"\x7d")
      (bytes "ssid") = [] ∧
    on_write_command (Env.mk true true (some []) true none [])
      (bytes "\x7b\"op\":\"wifi_connect\",\"ssid\":\"\",\"psk\":\"x\"\x7d")
      initWorld = initWorld :=
  ⟨by decide, by decide,
    claim_C8 (Env.mk true true (some []) true none []) _ initWorld
      (by decide) (by decide)⟩

/-- Claim C9: with the op field absent or empty, the legacy cmd field
is consulted: `wifi.scan` resolves and dispatches exactly as
`op = "wifi_scan"` (the scan handler is invoked), `wifi.connect`
exactly as `op = "wifi_connect"` (ssid/psk extraction and the empty-ssid
guard included); a non-empty op is used as-is, so cmd is consulted only
when op is empty. -/
theorem claim_C9 (env : Env) (p : List Nat) (w : World) :
    (json_get_string p (bytes "op") ≠ [] →
      resolve_op p = json_get_string p (bytes "op")) ∧
    (json_get_string p (bytes "op") = [] →
      json_get_string p (bytes "cmd") = bytes "wifi.scan" →
      resolve_op p = bytes "wifi_scan") ∧
    (json_get_string p (bytes "op") = [] →
      json_get_string p (bytes "cmd") = bytes "wifi.connect" →
      resolve_op p = bytes "wifi_connect") ∧
    (p ≠ [] → json_get_string p (bytes "op") = [] →
      json_get_string p (bytes "cmd") = bytes "wifi.scan" →
      on_write_command env p w = handle_wifi_scan_request env w) ∧
    (p ≠ [] → json_get_string p (bytes "op") = [] →
      json_get_string p (bytes "cmd") = bytes "wifi.connect" →
      on_write_command env p w =
        (if json_get_string p (bytes "ssid") = [] then w
         else handle_wifi_connect_request env
           (json_get_string p (bytes "ssid"))
           (json_get_string p (bytes "psk")) w)) := by
  have hscan : json_get_string p (bytes "op") = [] →
      json_get_string p (bytes "cmd") = bytes "wifi.scan" →
      resolve_op p = bytes "wifi_scan" := by
    intro hop hcmd
    unfold resolve_op
    rw [hop, if_pos rfl, hcmd, if_pos rfl]
  have hconn : json_get_string p (bytes "op") = [] →
      json_get_string p (bytes "cmd") = bytes "wifi.connect" →
      resolve_op p = bytes "wifi_connect" := by
    intro hop hcmd
    unfold resolve_op
    rw [hop, if_pos rfl, hcmd, if_neg (by decide), if_pos rfl]
  refine ⟨?_, hscan, hconn, ?_, ?_⟩
  · intro hop
    unfold resolve_op
    rw [if_neg hop]
  · intro hne hop hcmd
    unfold on_write_command
    rw [if_neg hne, hscan hop hcmd]
    unfold dispatch_op
    rw [if_pos rfl]
  · intro hne hop hcmd
    unfold on_write_command
    rw [if_neg hne, hconn hop hcmd]
    unfold dispatch_op
    rw [if_neg (by decide), if_pos rfl]

/-- Witness for C9: the legacy scan payload of scenario F. -/
theorem claim_C9_witness :
    resolve_op (bytes "\x7b\"cmd\":\"wifi.scan\"\x7d") =
      bytes "wifi_scan" ∧
    on_write_command (Env.mk true true (some []) true none [])
        (bytes "\x7b\"cmd\":\"wifi.scan\"\x7d") initWorld =
      handle_wifi_scan_request
        (Env.mk true true (some []) true none []) initWorld :=
  ⟨(claim_C9 (Env.mk true true (some []) true none [])
      (bytes "\x7b\"cmd\":\"wifi.scan\"\x7d") initWorld).2.1
      (by decide) (by decide),
    (claim_C9 (Env.mk true true (some []) true none [])
      (bytes "\x7b\"cmd\":\"wifi.scan\"\x7d") initWorld).2.2.2.1
      (by decide) (by decide) (by decide)⟩

/-- Counterexample to C2 as stated: with the daemon in UNCONFIGURED but
wlan0 already holding an IPv4 address (the previously-provisioned case
the code comment describes), StartNotify on State changes the
provisioning state (to CONNECTED) and emits a notification although the
state was not CONNECTED. -/
theorem claim_C2_counterexample :
    (start_notify_state
        (Env.mk true true (some []) true (some (bytes "HomeNet"))
          (bytes "192.168.1.20")) initWorld).g_state ≠
      initWorld.g_state ∧
    initWorld.g_state ≠ "CONNECTED" ∧
    (start_notify_state
        (Env.mk true true (some []) true (some (bytes "HomeNet"))
          (bytes "192.168.1.20")) initWorld).emitted ≠
      initWorld.emitted := by
  decide

/-- Claim C2 as amended: StartNotify on State leaves notifications
enabled and performs an immediate IPv4 check against NetworkManager;
when wlan0 is a reachable Wi-Fi device with a non-empty IPv4 address,
exactly one CONNECTED notification carrying the freshly queried ssid
and ip is emitted and the provisioning state becomes CONNECTED;
otherwise nothing is emitted and the provisioning state is unchanged. -/
theorem claim_C2 (env : Env) (w : World) :
    (start_notify_state env w).notifying = true ∧
    (start_notify_state env w).g_state =
      (if env.nm_ok = true ∧ env.wlan0_wifi = true ∧ env.ip4 ≠ []
       then "CONNECTED" else w.g_state) ∧
    (start_notify_state env w).emitted =
      w.emitted ++
        (if env.nm_ok = true ∧ env.wlan0_wifi = true ∧ env.ip4 ≠ []
         then [connectedJson (ssidOrUnknown env) env.ip4] else []) := by
  unfold start_notify_state on_ipv4_ready notify_state_connected
    ssidOrUnknown
  rcases env with ⟨nm, hwd, aps, wl, apS, ip⟩
  cases nm
  · simp
  · cases wl
    · simp
    · by_cases hip : ip = []
      · simp [hip]
      · simp [hip, notify_cv_emitted, notify_cv_g_state,
          notify_cv_notifying, make_ay_connectedJson]

/-- Claim C10: ReadValue on the State characteristic returns exactly
the bytes of the curly-braced state object for every reachable state;
in particular in CONNECTED the read value never equals the CONNECTED
notification payload, which carries the extra ssid and ip fields. -/
theorem claim_C10 (w : World)
    (h : w.g_state = "UNCONFIGURED" ∨ w.g_state = "SCANNING" ∨
      w.g_state = "SCAN_COMPLETE" ∨ w.g_state = "CONNECTING" ∨
      w.g_state = "CONNECTED") :
    on_read_state w = stateJson w.g_state ∧
    ∀ ssid ip, make_ay (connectedJson ssid ip) ≠ stateJson "CONNECTED" := by
  constructor
  · unfold on_read_state
    rcases h with h | h | h | h | h <;> rw [h] <;> decide
  · intro ssid ip
    rw [make_ay_connectedJson]
    intro heq
    have h20 := congrArg (fun l => l[20]?) heq
    have hform : connectedJson ssid ip =
        bytes "\x7b\"state\":\"CONNECTED\",\"ssid\":\"" ++
          (json_escape ssid ++ (bytes "\",\"ip\":\"" ++
            (json_escape ip ++ bytes "\"\x7d"))) := by
      unfold connectedJson
      simp [List.append_assoc]
    simp only [hform] at h20
    rw [List.getElem?_append_left (by decide)] at h20
    exact absurd h20 (by decide)

/-- Witness for C10: reading State while CONNECTED yields the bare
state object. -/
theorem claim_C10_witness :
    on_read_state { initWorld with g_state := "CONNECTED" } =
      stateJson "CONNECTED" :=
  (claim_C10 { initWorld with g_state := "CONNECTED" }
    (Or.inr (Or.inr (Or.inr (Or.inr rfl))))).1

end ProvisionBLE
